import Mathlib

/-!
Shallow embedding of the anomaly-detection scoring engine of
`src/analitica_cumplimiento/pipelines/anomalias.py` (class `PipelineAnomalias`).

Modelling conventions:

* A pandas `DataFrame` is a list of named, dtype-tagged columns (`Df`).
  Cell values are idealized: strings for object/category/period cells and
  exact rationals for numeric cells (floating point is idealized as exact
  field arithmetic); `Cell.nan` is the missing value.
* Python passes DataFrames by reference and the source sometimes mutates its
  argument in place (`df[col] = ...`).  Each embedded pipeline function
  therefore returns, besides its own return value, the state of the
  caller-visible argument object after the call; for functions that never
  assign into their argument this second component is the unchanged input.
* Failures (pandas `KeyError` on a missing column label, `ValueError` on a
  length-mismatched assignment) are modelled by `Except PdError`.
* The grouped z-score stage, whose arithmetic involves a square root, has its
  own real-valued model further below.
-/

/-- Pandas dtypes that this repository's pipelines actually construct
(`intermediate.py` casts to `int64` / `float64` / `datetime64`,
`feature.py` builds `period[M]` columns, text columns are `object`). -/
inductive Dtype
  | objectT
  | categoryT
  | periodM
  | datetime64
  | int64
  | float64
deriving DecidableEq

/-- A single cell of a DataFrame: a string value, a numeric value
(idealized float), or the missing value NaN. -/
inductive Cell
  | str (s : String)
  | num (q : ℚ)
  | nan
deriving DecidableEq

/-- Numeric payload of a cell, if any. -/
def Cell.toNum : Cell → Option ℚ
  | .num q => some q
  | _ => none

/-- A named column with a dtype tag and its cells. -/
structure Col where
  name : String
  dtype : Dtype
  cells : List Cell
deriving DecidableEq

/-- A DataFrame: an ordered list of columns. -/
structure Df where
  cols : List Col
deriving DecidableEq

/-- Column labels, in order. -/
def Df.names (df : Df) : List String :=
  df.cols.map (fun c => c.name)

/-- Look up a column by label (first match, as for unique pandas labels). -/
def Df.col? (df : Df) (n : String) : Option Col :=
  df.cols.find? (fun c => c.name == n)

/-- Number of rows (length of the columns; all columns of a real pandas
frame have equal length). -/
def Df.nrows (df : Df) : ℕ :=
  ((df.cols.head?).map (fun c => c.cells.length)).getD 0

/-- Cell at column label `n`, row `i` (NaN when out of range; theorems only
use it within range on present columns). -/
def Df.cell (df : Df) (n : String) (i : ℕ) : Cell :=
  ((df.col? n).map (fun c => c.cells.getD i Cell.nan)).getD Cell.nan

/-- Pandas column assignment `df[n] = cs`: overwrite an existing column in
place (keeping its position), else append a new column at the end. -/
def Df.setCol (df : Df) (n : String) (dt : Dtype) (cs : List Cell) : Df :=
  if df.names.contains n then
    ⟨df.cols.map (fun c => if c.name = n then ⟨n, dt, cs⟩ else c)⟩
  else
    ⟨df.cols ++ [⟨n, dt, cs⟩]⟩

/-- Errors surfaced by the embedded pipeline functions: pandas raises
`KeyError` for a missing column label and `ValueError` for a
length-mismatched value assignment. -/
inductive PdError
  | keyError (col : String)
  | valueError
deriving DecidableEq

/-- The `parameters_anomalias` dictionary consumed by the pipeline. -/
structure Params where
  cols_filter : List String
  groupby_cols : List String
  min_group_size : ℕ
  contamination_values : List ℚ
  contamination_value : ℚ

/-- Dtypes selected by `select_dtypes(include=['object','category','period[M]'])`
(line 44 of anomalias.py). -/
def isCategoricalDtype (d : Dtype) : Bool :=
  d == Dtype.objectT || d == Dtype.categoryT || d == Dtype.periodM

/-- Dtypes selected by `select_dtypes(include=['number'])` (line 47); among
the dtypes this repository constructs, the numeric ones are int64/float64. -/
def isNumberDtype (d : Dtype) : Bool :=
  d == Dtype.int64 || d == Dtype.float64

/-- Embedding of `PipelineAnomalias.df_filter_pd` (anomalias.py lines 18-54):
`filtered_df = df[params['cols_filter']]` (pandas raises `KeyError` when a
requested label is absent), then the categorical / numerical
`select_dtypes` projections.  The second component is the caller's `df`
after the call: the function never assigns into its argument. -/
def df_filter_pd (df : Df) (params : Params) :
    (Except PdError (Df × Df)) × Df :=
  match params.cols_filter.find? (fun c => !(df.names.contains c)) with
  | some c => (Except.error (PdError.keyError c), df)
  | none =>
    let filtered : Df := ⟨params.cols_filter.filterMap df.col?⟩
    let categorical : Df := ⟨filtered.cols.filter (fun c => isCategoricalDtype c.dtype)⟩
    let numerical : Df := ⟨filtered.cols.filter (fun c => isNumberDtype c.dtype)⟩
    (Except.ok (categorical, numerical), df)

/-- Minimum of a list of rationals (pandas `Series.min()` over the
non-missing values; the default is irrelevant: on an all-NaN column the
scaling loop body touches no numeric cell). -/
def qmin : List ℚ → ℚ
  | [] => 0
  | x :: xs => xs.foldl min x

/-- Maximum of a list of rationals (pandas `Series.max()`). -/
def qmax : List ℚ → ℚ
  | [] => 0
  | x :: xs => xs.foldl max x

/-- Non-missing numeric values of a column. -/
def Col.numVals (c : Col) : List ℚ :=
  c.cells.filterMap Cell.toNum

/-- The binary-indicator test of anomalias.py line 79:
`(df[col].nunique() == 2) & (df[col].isin([0, 1]).sum() == len(df))` —
exactly two distinct non-missing values and every row's cell equal to 0
or 1 (`nunique` ignores NaN; `isin` is false on NaN). -/
def isBinaryCol (df : Df) (c : Col) : Bool :=
  (c.numVals.dedup.length == 2) &&
    (c.cells.countP (fun x => x == Cell.num 0 || x == Cell.num 1) == df.nrows)

/-- Min-max rescaling of one cell; missing (and non-numeric) cells pass
through, as NaN arithmetic leaves NaN and is not claimed on. -/
def scaleCell (m r : ℚ) : Cell → Cell
  | .num x => .num ((x - m) / r)
  | c => c

/-- One iteration of the scaling loop of anomalias.py lines 85-91: look the
column up, take its min, max and range, and overwrite it with the rescaled
values (cast to float64) unless the range is zero. -/
def scaleColIn (d : Df) (n : String) : Df :=
  match d.col? n with
  | none => d
  | some c =>
    let minVal := qmin c.numVals
    let maxVal := qmax c.numVals
    let rangeVal := maxVal - minVal
    if rangeVal ≠ 0 then
      d.setCol n Dtype.float64 (c.cells.map (scaleCell minVal rangeVal))
    else d

/-- Embedding of `PipelineAnomalias.min_max_scaler_pd` (anomalias.py lines
59-95): select the numeric-dtype columns, drop the strict binary
indicators, copy the frame (`df.copy()`, line 82) and rescale each
remaining column on the copy.  The second component is the caller's `df`
after the call: all writes hit the copy. -/
def min_max_scaler_pd (df : Df) : Df × Df :=
  let numericCols :=
    (df.cols.filter (fun c => isNumberDtype c.dtype)).map (fun c => c.name)
  let selected :=
    numericCols.filter (fun n =>
      !(((df.col? n).map (fun c => isBinaryCol df c)).getD false))
  (selected.foldl scaleColIn df, df)

/-- Column label `anomaly_<c>` built by the detector (Python renders the
float; the embedding renders the rational — what matters is that the same
value always renders to the same label). -/
def anomalyColName (c : ℚ) : String :=
  "anomaly_" ++ toString c

/-- Feature matrix of anomalias.py lines 185-188: the columns whose label
starts with `z_score_`, read off row by row (`df[relevant_columns].values`). -/
def zscoreMatrix (df : Df) : List (List Cell) :=
  let relevant := df.names.filter (fun n => n.startsWith ("z_score_"))
  (List.range df.nrows).map (fun i => relevant.map (fun n => df.cell n i))

/-- Abstraction of the external scikit-learn call
`IsolationForest(contamination=c, random_state=seed).fit(m); clf.predict(m)`
(anomalias.py lines 192-196): a deterministic function of the seed, the
contamination level and the feature matrix, returning one label per row or
failing (e.g. on an empty feature matrix or too few samples). -/
def FitPredict : Type :=
  ℕ → ℚ → List (List Cell) → Except PdError (List ℤ)

/-- The per-contamination loop of anomalias.py lines 191-199, threading the
frame being mutated: fit-and-predict with seed 42 on the (fixed) feature
matrix, then assign the predictions as column `anomaly_<c>` (pandas raises
`ValueError` if the assigned vector's length differs from the row count,
leaving the frame untouched). -/
def detectarGo (fp : FitPredict) (m : List (List Cell)) :
    List ℚ → Df → (Except PdError Df) × Df
  | [], d => (Except.ok d, d)
  | c :: rest, d =>
    match fp 42 c m with
    | Except.error e => (Except.error e, d)
    | Except.ok pred =>
      if pred.length = d.nrows then
        detectarGo fp m rest
          (d.setCol (anomalyColName c) Dtype.int64 (pred.map (fun z => Cell.num (z : ℚ))))
      else (Except.error PdError.valueError, d)

/-- Embedding of `PipelineAnomalias.detectar_anomalias_pd` (anomalias.py
lines 161-203): compute the z-score feature matrix once from the input
frame, then run one seeded model per configured contamination value,
assigning each prediction vector into the argument frame in place.  The
second component is the caller's `df` after the call (the flag columns
added so far). -/
def detectar_anomalias_pd (fp : FitPredict) (df : Df) (params : Params) :
    (Except PdError Df) × Df :=
  detectarGo fp (zscoreMatrix df) params.contamination_values df

/-- NaN test on a cell (pandas groupby drops rows whose key is NaN). -/
def Cell.isNan : Cell → Bool
  | .nan => true
  | _ => false

/-- Lexicographic character-code order on strings (the order in which
pandas sorts string group keys). -/
def strLtB : List Char → List Char → Bool
  | [], [] => false
  | [], _ :: _ => true
  | _ :: _, [] => false
  | a :: as, b :: bs =>
    if a.toNat < b.toNat then true
    else if b.toNat < a.toNat then false
    else strLtB as bs

/-- A total Boolean order on cells mirroring how pandas sorts homogeneous
group keys (strings lexicographically, numbers by value). -/
def Cell.leB : Cell → Cell → Bool
  | .str a, .str b => a == b || strLtB a.data b.data
  | .str _, _ => true
  | .num _, .str _ => false
  | .num a, .num b => decide (a ≤ b)
  | .num _, .nan => true
  | .nan, .nan => true
  | .nan, _ => false

/-- Lexicographic order on (CUENTA, MES_ANIO) keys. -/
def keyLeB (k1 k2 : Cell × Cell) : Bool :=
  if k1.1 = k2.1 then Cell.leB k1.2 k2.2 else Cell.leB k1.1 k2.1

/-- The (CUENTA, MES_ANIO) key of row `i`. -/
def rowKey (df : Df) (i : ℕ) : Cell × Cell :=
  (df.cell ("CUENTA") i, df.cell ("MES_ANIO") i)

/-- Indices of the rows of the group keyed `k`, in row order
(`df.groupby(['CUENTA','MES_ANIO'])`, anomalias.py line 246). -/
def groupRows (df : Df) (k : Cell × Cell) : List ℕ :=
  (List.range df.nrows).filter (fun i => rowKey df i == k)

/-- The distinct non-NaN group keys, in the sorted order in which pandas
iterates groups. -/
def sortedKeys (df : Df) : List (Cell × Cell) :=
  List.insertionSort (fun a b => keyLeB a b = true)
    ((((List.range df.nrows).map (rowKey df)).filter
        (fun k => !(k.1.isNan || k.2.isNan))).dedup)

/-- One row of the summary table built in anomalias.py lines 249-255: the
group key and, per configured contamination value, the counts of rows
flagged -1 (`..._anomalas`) and flagged 1 (`..._no_anomalas`). -/
structure ResumenRow where
  cuenta : Cell
  mes_anio : Cell
  counts : List (ℚ × ℕ × ℕ)
deriving DecidableEq

/-- The column labels selected for the row-level report
(anomalias.py line 240). -/
def reporteCols : List String :=
  [("CUENTA"), ("MES_ANIO"), ("PAIS_ORIGEN_DESTINO_TRX"), ("MONTO"), ("MARCA_ANOMALIA")]

/-- The derived human-readable flag cells of anomalias.py line 237:
`df[columna_anomalia].apply(lambda x: 'ANOMALO' if x == -1 else 'NO ANOMALO')`
(NaN compares unequal to -1, hence maps to NO ANOMALO, as in pandas). -/
def marcaCells (c : Col) : List Cell :=
  c.cells.map (fun x =>
    Cell.str (if x == Cell.num (-1) then ("ANOMALO") else ("NO ANOMALO")))

/-- The caller's frame after the in-place `MARCA_ANOMALIA` assignment of
anomalias.py line 237. -/
def dfWithMarca (df : Df) (c : Col) : Df :=
  df.setCol ("MARCA_ANOMALIA") Dtype.objectT (marcaCells c)

/-- One `(contamination, anomalas, no_anomalas)` triple of the summary of
anomalias.py lines 252-253: `(sub_df[col] == -1).sum()` and
`(sub_df[col] == 1).sum()` over the group's rows. -/
def flagCounts (df1 : Df) (k : Cell × Cell) (cv : ℚ) : ℚ × ℕ × ℕ :=
  let cells := (groupRows df1 k).map (fun i => df1.cell (anomalyColName cv) i)
  (cv, cells.countP (fun x => x == Cell.num (-1)),
    cells.countP (fun x => x == Cell.num 1))

/-- The summary table of anomalias.py lines 243-258: one row per distinct
(CUENTA, MES_ANIO) group, with the per-contamination counts. -/
def resumenOf (df1 : Df) (cvs : List ℚ) : List ResumenRow :=
  (sortedKeys df1).map (fun k => ⟨k.1, k.2, cvs.map (flagCounts df1 k)⟩)

/-- Embedding of `PipelineAnomalias.procesar_anomalias_pd` (anomalias.py
lines 208-262): look up the operative flag column `anomaly_<v>` (pandas
`KeyError` when absent), assign the derived `MARCA_ANOMALIA` column into
the argument frame in place, select the report columns (`KeyError` when
one is absent), then build one summary row per distinct (CUENTA, MES_ANIO)
group; inside the group loop, the first access to a missing `anomaly_<c>`
column raises `KeyError` (hence only when at least one group exists).  The
second component is the caller's `df` after the call. -/
def procesar_anomalias_pd (df : Df) (params : Params) :
    (Except PdError (Df × List ResumenRow)) × Df :=
  let colName := anomalyColName params.contamination_value
  match df.col? colName with
  | none => (Except.error (PdError.keyError colName), df)
  | some c =>
    let df1 := dfWithMarca df c
    match reporteCols.find? (fun n => !(df1.names.contains n)) with
    | some n => (Except.error (PdError.keyError n), df1)
    | none =>
      let resultado : Df := ⟨reporteCols.filterMap df1.col?⟩
      match (if (sortedKeys df1).isEmpty then none
        else params.contamination_values.find? (fun cv =>
          !(df1.names.contains (anomalyColName cv)))) with
      | some cv => (Except.error (PdError.keyError (anomalyColName cv)), df1)
      | none =>
        (Except.ok (resultado, resumenOf df1 params.contamination_values), df1)

/-- A categorical key column for the z-score stage (the group keys
`CUENTA`, `MES_ANIO` carry string/period values, rendered as strings). -/
structure KeyCol where
  name : String
  cells : List String

/-- A numerical column for the z-score stage: real-valued cells with
`none` as NaN (real arithmetic idealizes the floats; the square root in the
z-score forces reals here). -/
structure RCol where
  name : String
  cells : List (Option ℝ)

/-- A derived z-score column: one real per row (after `fillna(0)` no cell
is missing). -/
structure ZCol where
  name : String
  cells : List ℝ

/-- Mean of a list of reals (`numpy.mean`; division by zero for the empty
list is never consumed: the z-score map over an empty list is empty). -/
noncomputable def meanR (xs : List ℝ) : ℝ :=
  xs.sum / (xs.length : ℝ)

/-- Sample variance with Bessel's correction (`ddof=1`).  For a singleton
list the divisor is zero and Lean's `x / 0 = 0` convention yields 0 where
numpy yields NaN; the subsequent z-score is then 0 in both models (numpy's
NaN is sent to 0 by the `.fillna(0)` of anomalias.py line 144). -/
noncomputable def sampleVar (xs : List ℝ) : ℝ :=
  (xs.map (fun x => (x - meanR xs) ^ 2)).sum / ((xs.length - 1 : ℕ) : ℝ)

/-- Sample standard deviation (`numpy.std(..., ddof=1)`). -/
noncomputable def sampleStd (xs : List ℝ) : ℝ :=
  Real.sqrt (sampleVar xs)

/-- `scipy.stats.zscore(xs, ddof=1)`: positionally, `(x - mean) / std`.
For a zero-variance list the divisor is zero: scipy yields NaN, sent to 0
by `.fillna(0)`; Lean's `x / 0 = 0` convention lands on the same 0. -/
noncomputable def zscoreVals (xs : List ℝ) : List ℝ :=
  xs.map (fun x => (x - meanR xs) / sampleStd xs)

/-- The `groupby_cols` key tuple of row `i` (`combined_df.groupby(groupby_cols)`,
anomalias.py line 139; the defaults are unreachable once the key columns
are present and long enough, which the pipeline guarantees). -/
def keyTuple (cat : List KeyCol) (gcols : List String) (i : ℕ) : List String :=
  gcols.map (fun g =>
    (((cat.find? (fun c => c.name == g)).getD ⟨g, []⟩).cells.getD i ("")))

/-- Row indices of the group row `i` belongs to, in row order. -/
def groupIdxs (cat : List KeyCol) (gcols : List String) (n : ℕ) (i : ℕ) : List ℕ :=
  (List.range n).filter (fun j => keyTuple cat gcols j == keyTuple cat gcols i)

/-- The lambda of anomalias.py line 143 applied to one group `g`:
`zscore(x.dropna(), ddof=1) if len(x.dropna()) >= min_group_size else
pd.Series([0]*len(x), index=x.index)`. -/
noncomputable def lambdaZ (minSize : ℕ) (g : List (Option ℝ)) : List ℝ :=
  let xs := g.reduceOption
  if minSize ≤ xs.length then zscoreVals xs else List.replicate g.length 0

/-- Length of the lambda's result (computably): the z-score branch returns
one value per non-missing entry, the suppression branch one per row. -/
def lambdaLen (minSize : ℕ) (g : List (Option ℝ)) : ℕ :=
  if minSize ≤ g.reduceOption.length then g.reduceOption.length else g.length

/-- The value `transform` writes at row `i`: the lambda's result for the
row's group, read at the row's position within its group.  Pandas places a
returned plain array positionally over the group's rows
(`Series(res, index=group.index)`). -/
noncomputable def transformZAt (minSize : ℕ) (cat : List KeyCol) (gcols : List String)
    (vals : List (Option ℝ)) (i : ℕ) : ℝ :=
  let gi := groupIdxs cat gcols vals.length i
  (lambdaZ minSize (gi.map (fun j => vals.getD j none))).getD (gi.indexOf i) 0

/-- Pandas accepts a group's transform result only if its length matches
the group's size (else `Series(res, index=group.index)` raises
`ValueError`); this checks every group of one column. -/
def transformOk (minSize : ℕ) (cat : List KeyCol) (gcols : List String)
    (vals : List (Option ℝ)) : Bool :=
  (List.range vals.length).all (fun i =>
    lambdaLen minSize
        ((groupIdxs cat gcols vals.length i).map (fun j => vals.getD j none))
      == (groupIdxs cat gcols vals.length i).length)

/-- Embedding of `PipelineAnomalias.calculate_z_scores_pd` (anomalias.py
lines 100-156): check the group-key columns exist (`categorical_df[groupby_cols]`
raises `KeyError` otherwise), then derive one `z_score_`-prefixed column
per numerical column via the grouped transform; the result concatenates
the categorical columns, the numerical columns and the z-score columns in
that order (line 150).  The trailing `.fillna(0)` is a no-op in this model:
every row belongs to a (non-NaN-keyed) group, and the NaN that scipy
produces on a zero-variance group is already the 0 that Lean's
division-by-zero convention produces.  The second component is the state
of the two caller-visible arguments after the call (never written to: the
z-scores are built in a fresh frame and combined by `pd.concat`). -/
noncomputable def calculate_z_scores_pd (catDf : List KeyCol) (numDf : List RCol)
    (params : Params) :
    (Except PdError (List KeyCol × List RCol × List ZCol)) × (List KeyCol × List RCol) :=
  match params.groupby_cols.find?
      (fun g => !((catDf.map (fun c => c.name)).contains g)) with
  | some g => (Except.error (PdError.keyError g), (catDf, numDf))
  | none =>
    if numDf.all (fun col =>
        transformOk params.min_group_size catDf params.groupby_cols col.cells) then
      (Except.ok (catDf, numDf, numDf.map (fun col =>
        ⟨"z_score_" ++ col.name,
          (List.range col.cells.length).map
            (transformZAt params.min_group_size catDf params.groupby_cols col.cells)⟩)),
        (catDf, numDf))
    else (Except.error PdError.valueError, (catDf, numDf))

/-- Membership form of `List.contains` on strings. -/
theorem containsIffMem {l : List String} {a : String} :
    l.contains a = true ↔ a ∈ l :=
  List.elem_iff

/-- A label absent from a frame is found by no column lookup. -/
theorem findColEqNone {df : Df} {n : String} (h : n ∉ df.names) :
    df.cols.find? (fun c => c.name == n) = none := by
  rw [List.find?_eq_none]
  intro c hc
  simp only [beq_iff_eq, Bool.not_eq_true]
  intro hceq
  exact h (hceq ▸ List.mem_map_of_mem (fun c => c.name) hc)

/-- Assigning a fresh label appends it to the label list. -/
theorem namesSetColFresh (df : Df) (n : String) (dt : Dtype) (cs : List Cell)
    (h : n ∉ df.names) : (df.setCol n dt cs).names = df.names ++ [n] := by
  unfold Df.setCol
  rw [if_neg (by simpa [containsIffMem] using h)]
  simp [Df.names]

/-- Assigning a fresh label makes it retrievable. -/
theorem colSetColFreshSelf (df : Df) (n : String) (dt : Dtype) (cs : List Cell)
    (h : n ∉ df.names) :
    (df.setCol n dt cs).col? n = some ⟨n, dt, cs⟩ := by
  unfold Df.setCol
  rw [if_neg (by simpa [containsIffMem] using h)]
  simp [Df.col?, List.find?_append, findColEqNone h, List.find?]

/-- Column assignment leaves every other label's lookup unchanged. -/
theorem colSetColOther (df : Df) (n : String) (dt : Dtype) (cs : List Cell)
    (m : String) (hm : m ≠ n) :
    (df.setCol n dt cs).col? m = df.col? m := by
  have hnm : ((⟨n, dt, cs⟩ : Col).name == m) = false := by
    simp [Ne.symm hm]
  unfold Df.setCol
  by_cases h : df.names.contains n = true
  · rw [if_pos h]
    show List.find? _ (df.cols.map _) = List.find? _ df.cols
    induction df.cols with
    | nil => rfl
    | cons c t ih =>
      by_cases hc : c.name = n
      · rw [List.map_cons, if_pos hc,
          @List.find?_cons_of_neg _ (fun x : Col => x.name == m) ⟨n, dt, cs⟩ _
            (by simp [hnm]),
          @List.find?_cons_of_neg _ (fun x : Col => x.name == m) c _
            (by simp [hc, Ne.symm hm]), ih]
      · by_cases hcm : (c.name == m) = true
        · rw [List.map_cons, if_neg hc,
            @List.find?_cons_of_pos _ (fun x : Col => x.name == m) c _ hcm,
            @List.find?_cons_of_pos _ (fun x : Col => x.name == m) c _ hcm]
        · rw [List.map_cons, if_neg hc,
            @List.find?_cons_of_neg _ (fun x : Col => x.name == m) c _ (by simp [hcm]),
            @List.find?_cons_of_neg _ (fun x : Col => x.name == m) c _ (by simp [hcm]), ih]
  · rw [if_neg h]
    show List.find? _ (df.cols ++ _) = List.find? _ df.cols
    rw [List.find?_append]
    have hsing : List.find? (fun c => c.name == m) [(⟨n, dt, cs⟩ : Col)] = none := by
      rw [@List.find?_cons_of_neg _ (fun x : Col => x.name == m) ⟨n, dt, cs⟩ _
        (by simp [hnm])]
      rfl
    rw [hsing]
    cases List.find? (fun c => c.name == m) df.cols <;> rfl

/-- Column assignment leaves every other label's cells unchanged. -/
theorem cellSetColOther (df : Df) (n : String) (dt : Dtype) (cs : List Cell)
    (m : String) (hm : m ≠ n) (i : ℕ) :
    (df.setCol n dt cs).cell m i = df.cell m i := by
  unfold Df.cell
  rw [colSetColOther df n dt cs m hm]

/-- Assigning a fresh label to a nonempty frame keeps the row count. -/
theorem nrowsSetColFresh (df : Df) (n : String) (dt : Dtype) (cs : List Cell)
    (h : n ∉ df.names) (hne : df.cols ≠ []) :
    (df.setCol n dt cs).nrows = df.nrows := by
  unfold Df.setCol
  rw [if_neg (by simpa [containsIffMem] using h)]
  unfold Df.nrows
  cases hc : df.cols with
  | nil => exact absurd hc hne
  | cons c t => simp [hc]

/-- Counting two mutually exclusive, jointly exhaustive cell values
partitions a list. -/
theorem countPPartition (l : List Cell)
    (h : ∀ x ∈ l, x = Cell.num (-1) ∨ x = Cell.num 1) :
    l.countP (fun x => x == Cell.num (-1)) +
      l.countP (fun x => x == Cell.num 1) = l.length := by
  induction l with
  | nil => simp
  | cons a t ih =>
    have ht := ih (fun x hx => h x (List.mem_cons_of_mem a hx))
    rcases h a (List.mem_cons_self a t) with ha | ha <;> subst ha <;>
      simp only [List.countP_cons, List.length_cons] <;> norm_num <;> omega

/-- C10 helper: the detector loop over an empty contamination list is the
identity. -/
theorem detectarGoNil (fp : FitPredict) (m : List (List Cell)) (d : Df) :
    detectarGo fp m [] d = (Except.ok d, d) :=
  rfl

/-- Unfolding equation of the detector loop on a nonempty list. -/
theorem detectarGoCons (fp : FitPredict) (m : List (List Cell)) (c : ℚ)
    (rest : List ℚ) (d : Df) :
    detectarGo fp m (c :: rest) d =
      match fp 42 c m with
      | Except.error e => (Except.error e, d)
      | Except.ok pred =>
        if pred.length = d.nrows then
          detectarGo fp m rest
            (d.setCol (anomalyColName c) Dtype.int64
              (pred.map (fun z => Cell.num (z : ℚ))))
        else (Except.error PdError.valueError, d) :=
  rfl

/-- C10: with an empty `contamination_values` list, `detectar_anomalias_pd`
returns its input unchanged and raises no error — no model is ever fitted,
so the empty-feature-matrix / insufficient-data failure paths of the fit
call are never reached, whatever the table (no `z_score_` columns, zero
rows included). -/
theorem detectarEmptyContaminations (fp : FitPredict) (df : Df) (params : Params)
    (h : params.contamination_values = []) :
    detectar_anomalias_pd fp df params = (Except.ok df, df) := by
  unfold detectar_anomalias_pd
  rw [h]
  exact detectarGoNil fp (zscoreMatrix df) df

/-- A fit-and-predict stand-in for witnesses: flags every row normal. -/
def fpAllOnes : FitPredict :=
  fun _ _ m => Except.ok (m.map (fun _ => 1))

/-- Witness table for C10: no columns at all (hence zero rows and no
`z_score_` columns). -/
def dfEmptyW : Df :=
  ⟨[]⟩

/-- Witness parameters for C10: empty contamination list. -/
def paramsEmptyW : Params :=
  ⟨[], [], 0, [], 0⟩

/-- C10 witness: the theorem applied to the empty table and an empty
contamination list. -/
theorem detectarEmptyContaminationsWitness :
    paramsEmptyW.contamination_values = [] ∧
      detectar_anomalias_pd fpAllOnes dfEmptyW paramsEmptyW =
        (Except.ok dfEmptyW, dfEmptyW) :=
  ⟨rfl, detectarEmptyContaminations fpAllOnes dfEmptyW paramsEmptyW rfl⟩

/-- Counterexample table for C3's detector part: one z-score column, two
rows. -/
def dfMutC : Df :=
  ⟨[⟨("z_score_MONTO"), Dtype.float64, [Cell.num 1, Cell.num 2]⟩]⟩

/-- Parameters with a single contamination level (0.1), also operative. -/
def paramsMutC : Params :=
  ⟨[], [], 0, [mkRat 1 10], mkRat 1 10⟩

/-- Counterexample table for C3's summarizer part: the operative flag
column is present, so the `MARCA_ANOMALIA` assignment hits the caller's
frame (before the report-column lookup fails, exactly as in Python). -/
def dfMutP : Df :=
  ⟨[⟨anomalyColName (mkRat 1 10), Dtype.int64, [Cell.num (-1)]⟩]⟩

/-- C3 counterexample: `detectar_anomalias_pd` and `procesar_anomalias_pd`
do NOT leave the caller's table unchanged — after the calls the argument
object differs from the table that was passed in (it gained the
`anomaly_<c>` flag columns, respectively `MARCA_ANOMALIA`). -/
theorem mutationCounterexample :
    (detectar_anomalias_pd fpAllOnes dfMutC paramsMutC).2 ≠ dfMutC ∧
      (procesar_anomalias_pd dfMutP paramsMutC).2 ≠ dfMutP := by
  decide

/-- C3 amended: `df_filter_pd`, `min_max_scaler_pd` (which works on a
copy) and `calculate_z_scores_pd` leave the caller's argument unchanged,
but `detectar_anomalias_pd` mutates its argument in place (on success the
caller's table IS the returned flagged table) and `procesar_anomalias_pd`
assigns the `MARCA_ANOMALIA` column into its argument in place whenever
the operative flag column exists (and leaves it unchanged when that first
lookup fails). -/
theorem mutationBehavior :
    (∀ df : Df, (min_max_scaler_pd df).2 = df) ∧
    (∀ df params, (df_filter_pd df params).2 = df) ∧
    (∀ catDf numDf params,
      (calculate_z_scores_pd catDf numDf params).2 = (catDf, numDf)) ∧
    (∀ fp df params out, (detectar_anomalias_pd fp df params).1 = Except.ok out →
      (detectar_anomalias_pd fp df params).2 = out) ∧
    (∀ df params c,
      df.col? (anomalyColName params.contamination_value) = some c →
      (procesar_anomalias_pd df params).2 = dfWithMarca df c) ∧
    (∀ df params,
      df.col? (anomalyColName params.contamination_value) = none →
      (procesar_anomalias_pd df params).2 = df) := by
  refine ⟨fun df => rfl, fun df params => ?_, fun catDf numDf params => ?_,
    fun fp df params out h => ?_, fun df params c hc => ?_, fun df params hc => ?_⟩
  · unfold df_filter_pd
    cases params.cols_filter.find? (fun c => !(df.names.contains c)) <;> rfl
  · unfold calculate_z_scores_pd
    cases params.groupby_cols.find?
        (fun g => !((catDf.map (fun c => c.name)).contains g)) with
    | some g => rfl
    | none => simp only [apply_ite Prod.snd, ite_self]
  · unfold detectar_anomalias_pd at h ⊢
    revert h
    generalize zscoreMatrix df = m
    generalize params.contamination_values = cs
    induction cs generalizing df with
    | nil =>
      intro h
      rw [detectarGoNil] at h
      rw [detectarGoNil]
      exact Except.ok.inj h
    | cons c rest ih =>
      intro h
      cases hf : fp 42 c m with
      | error e =>
        simp only [detectarGoCons, hf] at h
        simp at h
      | ok pred =>
        simp only [detectarGoCons, hf] at h ⊢
        by_cases hl : pred.length = df.nrows
        · rw [if_pos hl] at h ⊢
          exact ih _ h
        · rw [if_neg hl] at h
          simp at h
  · unfold procesar_anomalias_pd
    simp only [hc]
    split
    · rfl
    · split <;> rfl
  · unfold procesar_anomalias_pd
    simp only [hc]

/-- The flagged table the detector produces on the C3 fixture: the input
plus one appended `anomaly_<c>` column. -/
def outMutC : Df :=
  dfMutC.setCol (anomalyColName (mkRat 1 10)) Dtype.int64 [Cell.num 1, Cell.num 1]

/-- C3 amended witness: the detector's in-place-mutation clause of the
amended theorem, instantiated on a concrete successful run. -/
theorem mutationBehaviorWitness :
    (detectar_anomalias_pd fpAllOnes dfMutC paramsMutC).1 = Except.ok outMutC ∧
      (detectar_anomalias_pd fpAllOnes dfMutC paramsMutC).2 = outMutC :=
  ⟨by rfl, mutationBehavior.2.2.2.1 fpAllOnes dfMutC paramsMutC outMutC (by rfl)⟩

/-- C9: `df_filter_pd` fails with the typed missing-column error — the
pandas `KeyError` carrying an absent label — precisely when some column of
`cols_filter` is missing from the table, producing no partial output
(first conjunct), and succeeds when every configured column is present
(second conjunct). -/
theorem dfFilterMissingColumn (df : Df) (params : Params) :
    ((∃ c ∈ params.cols_filter, c ∉ df.names) →
      ∃ c ∈ params.cols_filter, c ∉ df.names ∧
        (df_filter_pd df params).1 = Except.error (PdError.keyError c)) ∧
    ((∀ c ∈ params.cols_filter, c ∈ df.names) →
      ∃ catdf numdf, (df_filter_pd df params).1 = Except.ok (catdf, numdf)) := by
  constructor
  · rintro ⟨c, hc, hcn⟩
    cases hf : params.cols_filter.find? (fun c => !(df.names.contains c)) with
    | none =>
      rw [List.find?_eq_none] at hf
      exact absurd (by simpa [containsIffMem] using hf c hc) (by simpa using hcn)
    | some c0 =>
      refine ⟨c0, List.mem_of_find?_eq_some hf, ?_, ?_⟩
      · have h1 := List.find?_some hf
        simpa [containsIffMem] using h1
      · unfold df_filter_pd
        rw [hf]
  · intro hall
    cases hf : params.cols_filter.find? (fun c => !(df.names.contains c)) with
    | none =>
      refine ⟨⟨(params.cols_filter.filterMap df.col?).filter
          (fun c => isCategoricalDtype c.dtype)⟩,
        ⟨(params.cols_filter.filterMap df.col?).filter
          (fun c => isNumberDtype c.dtype)⟩, ?_⟩
      unfold df_filter_pd
      rw [hf]
    | some c0 =>
      have h1 := List.find?_some hf
      have h2 := List.mem_of_find?_eq_some hf
      exact absurd (by simpa [containsIffMem] using h1) (by simp [hall c0 h2])

/-- Witness table for C9: only a CUENTA column. -/
def dfFilterW : Df :=
  ⟨[⟨("CUENTA"), Dtype.objectT, [Cell.str ("A")]⟩]⟩

/-- Witness parameters for C9: cols_filter also asks for an absent MONTO. -/
def paramsFilterW : Params :=
  ⟨[("CUENTA"), ("MONTO")], [], 0, [], 0⟩

/-- C9 witness: a configured column is absent, and the theorem yields the
missing-column failure on the concrete table. -/
theorem dfFilterMissingColumnWitness :
    ∃ c ∈ paramsFilterW.cols_filter, c ∉ dfFilterW.names ∧
      (df_filter_pd dfFilterW paramsFilterW).1 = Except.error (PdError.keyError c) :=
  (dfFilterMissingColumn dfFilterW paramsFilterW).1 ⟨("MONTO"), by decide, by decide⟩

/-- Among columns with pairwise distinct labels, a column is found by the
lookup for its own label. -/
theorem findColOfMem {cols : List Col} (hnodup : (cols.map (fun c => c.name)).Nodup)
    {c : Col} (hc : c ∈ cols) :
    cols.find? (fun x => x.name == c.name) = some c := by
  induction cols with
  | nil => cases hc
  | cons a t ih =>
    rcases List.mem_cons.mp hc with rfl | hct
    · rw [@List.find?_cons_of_pos _ (fun x : Col => x.name == c.name) c t (by simp)]
    · have hne : a.name ≠ c.name := by
        intro he
        have hmm : c.name ∈ List.map (fun c => c.name) t :=
          List.mem_map_of_mem (fun c => c.name) hct
        exact (List.nodup_cons.mp hnodup).1 (by simpa [he] using hmm)
      rw [@List.find?_cons_of_neg _ (fun x : Col => x.name == c.name) a t (by simp [hne])]
      exact ih (List.nodup_cons.mp hnodup).2 hct

/-- Two columns of a distinctly-labelled frame with the same label are the
same column. -/
theorem eqOfMemNameEq {cols : List Col} (hnodup : (cols.map (fun c => c.name)).Nodup)
    {c₁ c₂ : Col} (h₁ : c₁ ∈ cols) (h₂ : c₂ ∈ cols) (hn : c₁.name = c₂.name) :
    c₁ = c₂ :=
  List.inj_on_of_nodup_map hnodup h₁ h₂ hn

/-- Label membership in a dtype-filtered projection of selected columns. -/
theorem memFilteredNamesIff (df : Df) (cols_filter : List String)
    (hnodup : df.names.Nodup) (p : Col → Bool) (n : String) :
    (n ∈ (Df.mk ((cols_filter.filterMap df.col?).filter p)).names) ↔
      ∃ c ∈ df.cols, c.name = n ∧ n ∈ cols_filter ∧ p c = true := by
  simp only [Df.names, List.mem_map, List.mem_filter, List.mem_filterMap]
  constructor
  · rintro ⟨col, ⟨⟨nm, hnm, hfind⟩, hp⟩, rfl⟩
    have hname : col.name = nm := by
      have h1 := List.find?_some hfind
      simpa using h1
    exact ⟨col, List.mem_of_find?_eq_some hfind, rfl, hname ▸ hnm, hp⟩
  · rintro ⟨c, hc, rfl, hmem, hp⟩
    exact ⟨c, ⟨⟨c.name, hmem, findColOfMem hnodup hc⟩, hp⟩, rfl⟩

/-- C7 amended: on success (all configured columns present, labels
distinct), a configured column of categorical-like dtype lands exactly in
the categorical subset, one of numeric dtype exactly in the numerical
subset, the two subsets are disjoint, and no label outside `cols_filter`
appears in either — but a configured column of any other dtype (e.g.
datetime64) appears in neither subset, so the partition is exhaustive only
over categorical-like and numeric dtypes. -/
theorem dfFilterPartition (df : Df) (params : Params) (hnodup : df.names.Nodup)
    (catdf numdf : Df)
    (hok : (df_filter_pd df params).1 = Except.ok (catdf, numdf)) :
    (∀ n, n ∈ catdf.names ↔ ∃ c ∈ df.cols, c.name = n ∧
        n ∈ params.cols_filter ∧ isCategoricalDtype c.dtype = true) ∧
    (∀ n, n ∈ numdf.names ↔ ∃ c ∈ df.cols, c.name = n ∧
        n ∈ params.cols_filter ∧ isNumberDtype c.dtype = true) ∧
    (∀ n, ¬(n ∈ catdf.names ∧ n ∈ numdf.names)) ∧
    (∀ n, n ∉ params.cols_filter → n ∉ catdf.names ∧ n ∉ numdf.names) := by
  unfold df_filter_pd at hok
  cases hf : params.cols_filter.find? (fun c => !(df.names.contains c)) with
  | some c0 =>
    rw [hf] at hok
    exact absurd hok (by simp)
  | none =>
    rw [hf] at hok
    have hpair : (Except.ok
        ((⟨(params.cols_filter.filterMap df.col?).filter
            (fun c => isCategoricalDtype c.dtype)⟩ : Df),
          (⟨(params.cols_filter.filterMap df.col?).filter
            (fun c => isNumberDtype c.dtype)⟩ : Df)) :
          Except PdError (Df × Df)) = Except.ok (catdf, numdf) := hok
    obtain ⟨hcat, hnum⟩ := Prod.mk.injEq .. ▸ (Except.ok.inj hpair)
    subst hcat
    subst hnum
    refine ⟨fun n => memFilteredNamesIff df params.cols_filter hnodup _ n,
      fun n => memFilteredNamesIff df params.cols_filter hnodup _ n, ?_, ?_⟩
    · rintro n ⟨hin1, hin2⟩
      obtain ⟨c₁, hc₁, he₁, _, hd₁⟩ :=
        (memFilteredNamesIff df params.cols_filter hnodup _ n).mp hin1
      obtain ⟨c₂, hc₂, he₂, _, hd₂⟩ :=
        (memFilteredNamesIff df params.cols_filter hnodup _ n).mp hin2
      cases eqOfMemNameEq hnodup hc₁ hc₂ (he₁.trans he₂.symm)
      cases hdt : c₁.dtype <;> rw [hdt] at hd₁ hd₂ <;>
        simp [isCategoricalDtype, isNumberDtype] at hd₁ hd₂
    · intro n hn
      constructor
      · intro hin
        obtain ⟨c, _, _, hmem, _⟩ :=
          (memFilteredNamesIff df params.cols_filter hnodup _ n).mp hin
        exact hn hmem
      · intro hin
        obtain ⟨c, _, _, hmem, _⟩ :=
          (memFilteredNamesIff df params.cols_filter hnodup _ n).mp hin
        exact hn hmem

/-- C7 counterexample table: one datetime64 column. -/
def dfDatetimeW : Df :=
  ⟨[⟨("FECHA_TRANSACCION"), Dtype.datetime64, [Cell.num 0]⟩]⟩

/-- C7 counterexample parameters: cols_filter names the datetime column. -/
def paramsDatetimeW : Params :=
  ⟨[("FECHA_TRANSACCION")], [], 0, [], 0⟩

/-- C7 counterexample: every configured column exists, yet the configured
datetime64 column lands in NEITHER returned subset (both outputs are
empty) — the partition is not exhaustive over `cols_filter`. -/
theorem dfFilterPartitionCounterexample :
    (∀ c ∈ paramsDatetimeW.cols_filter, c ∈ dfDatetimeW.names) ∧
      ("FECHA_TRANSACCION") ∈ paramsDatetimeW.cols_filter ∧
      (df_filter_pd dfDatetimeW paramsDatetimeW).1 =
        Except.ok (⟨[]⟩, ⟨[]⟩) :=
  ⟨by decide, by decide, by rfl⟩

/-- Witness table for C7: one categorical and one numeric column. -/
def dfPartW : Df :=
  ⟨[⟨("CUENTA"), Dtype.objectT, [Cell.str ("A")]⟩,
    ⟨("MONTO"), Dtype.float64, [Cell.num 5]⟩]⟩

/-- Witness parameters for C7. -/
def paramsPartW : Params :=
  ⟨[("CUENTA"), ("MONTO")], [], 0, [], 0⟩

/-- Expected categorical subset for the C7 witness. -/
def catPartW : Df :=
  ⟨[⟨("CUENTA"), Dtype.objectT, [Cell.str ("A")]⟩]⟩

/-- Expected numerical subset for the C7 witness. -/
def numPartW : Df :=
  ⟨[⟨("MONTO"), Dtype.float64, [Cell.num 5]⟩]⟩

/-- C7 witness: the amended partition theorem applied to a concrete
two-column table, yielding the disjointness conclusion. -/
theorem dfFilterPartitionWitness :
    dfPartW.names.Nodup ∧
      (df_filter_pd dfPartW paramsPartW).1 = Except.ok (catPartW, numPartW) ∧
      (∀ n, ¬(n ∈ catPartW.names ∧ n ∈ numPartW.names)) :=
  ⟨by decide, by rfl,
    (dfFilterPartition dfPartW paramsPartW (by decide) catPartW numPartW
      (by rfl)).2.2.1⟩

/-- Whether an embedded call returned normally. -/
def exceptIsOk {ε α : Type} : Except ε α → Bool
  | Except.ok _ => true
  | Except.error _ => false

/-- Labels after a column assignment: the old labels plus possibly the new
one. -/
theorem namesSetCol (df : Df) (n : String) (dt : Dtype) (cs : List Cell)
    (x : String) :
    x ∈ (df.setCol n dt cs).names ↔ x ∈ df.names ∨ x = n := by
  unfold Df.setCol
  by_cases h : df.names.contains n = true
  · have hn : n ∈ df.names := containsIffMem.mp h
    rw [if_pos h]
    simp only [Df.names, List.mem_map] at hn ⊢
    constructor
    · rintro ⟨c', ⟨a, ha, rfl⟩, rfl⟩
      by_cases han : a.name = n
      · right
        simp [han]
      · left
        exact ⟨a, ha, by simp [han]⟩
    · rintro (⟨a, ha, rfl⟩ | rfl)
      · refine ⟨(if a.name = n then (⟨n, dt, cs⟩ : Col) else a), ⟨a, ha, rfl⟩, ?_⟩
        by_cases han : a.name = n <;> simp [han]
      · obtain ⟨c0, hc0, hc0n⟩ := hn
        refine ⟨(if c0.name = x then (⟨x, dt, cs⟩ : Col) else c0), ⟨c0, hc0, rfl⟩, ?_⟩
        simp [hc0n]
  · rw [if_neg h]
    simp only [Df.names, List.map_append, List.mem_append, List.map_cons,
      List.map_nil, List.mem_singleton, List.mem_cons]
    constructor
    · rintro (hx | hx | hx)
      · exact Or.inl hx
      · exact Or.inr hx
      · cases hx
    · rintro (hx | rfl)
      · exact Or.inl hx
      · exact Or.inr (Or.inl rfl)

/-- C8 amended: the summarizer checks column PRESENCE, not list
membership — it fails with the missing-column `KeyError` on `anomaly_<v>`
exactly when that column is absent from the table, and returns normally
whenever the operative flag column, the four report columns and every
configured `anomaly_<c>` column are present, regardless of whether `v` is
a member of `contamination_values`. -/
theorem procesarUnknownContamination (df : Df) (params : Params) :
    (df.col? (anomalyColName params.contamination_value) = none →
      (procesar_anomalias_pd df params).1 =
        Except.error (PdError.keyError (anomalyColName params.contamination_value))) ∧
    (∀ c, df.col? (anomalyColName params.contamination_value) = some c →
      ("CUENTA") ∈ df.names → ("MES_ANIO") ∈ df.names →
      ("PAIS_ORIGEN_DESTINO_TRX") ∈ df.names → ("MONTO") ∈ df.names →
      (∀ cv ∈ params.contamination_values, anomalyColName cv ∈ df.names) →
      exceptIsOk (procesar_anomalias_pd df params).1 = true) := by
  constructor
  · intro hc
    unfold procesar_anomalias_pd
    simp only [hc]
  · intro c hc h1 h2 h3 h4 hall
    unfold procesar_anomalias_pd
    simp only [hc]
    have hrep : reporteCols.find?
        (fun n => !((dfWithMarca df c).names.contains n)) = none := by
      rw [List.find?_eq_none]
      intro r hr
      have hrmem : r ∈ (dfWithMarca df c).names := by
        apply (namesSetCol df _ _ _ r).mpr
        simp only [reporteCols, List.mem_cons, List.mem_singleton] at hr
        rcases hr with rfl | rfl | rfl | rfl | rfl | hr
        · exact Or.inl h1
        · exact Or.inl h2
        · exact Or.inl h3
        · exact Or.inl h4
        · exact Or.inr rfl
        · cases hr
      simpa using hrmem
    simp only [hrep]
    have hmf : (if (sortedKeys (dfWithMarca df c)).isEmpty then none
        else params.contamination_values.find? (fun cv =>
          !((dfWithMarca df c).names.contains (anomalyColName cv)))) = none := by
      split
      · rfl
      · rw [List.find?_eq_none]
        intro cv hcv
        have hmem : anomalyColName cv ∈ (dfWithMarca df c).names :=
          (namesSetCol df _ _ _ _).mpr (Or.inl (hall cv hcv))
        simpa using hmem
    simp only [hmf]
    rfl

/-- C8 counterexample table: the four report columns plus a leftover
`anomaly_<0.2>` flag column. -/
def dfProcW : Df :=
  ⟨[⟨("CUENTA"), Dtype.objectT, [Cell.str ("A")]⟩,
    ⟨("MES_ANIO"), Dtype.periodM, [Cell.str ("2023-01")]⟩,
    ⟨("PAIS_ORIGEN_DESTINO_TRX"), Dtype.objectT, [Cell.str ("CO-US")]⟩,
    ⟨("MONTO"), Dtype.float64, [Cell.num 100]⟩,
    ⟨anomalyColName (mkRat 2 10), Dtype.int64, [Cell.num (-1)]⟩]⟩

/-- C8 counterexample parameters: the operative value 0.2 is NOT in the
(empty) configured contamination list. -/
def paramsProcW : Params :=
  ⟨[], [], 0, [], mkRat 2 10⟩

/-- C8 counterexample: the operative contamination value is not a member
of the configured list, yet `procesar_anomalias_pd` succeeds (no error of
any kind) because the column `anomaly_<v>` happens to exist — the failure
condition claimed in the spec is not the one the code implements. -/
theorem procesarUnknownContaminationCounterexample :
    paramsProcW.contamination_value ∉ paramsProcW.contamination_values ∧
      exceptIsOk (procesar_anomalias_pd dfProcW paramsProcW).1 = true :=
  ⟨by decide, by rfl⟩

/-- C8 witness: the success clause of the amended theorem applied to the
concrete table (all needed columns present). -/
theorem procesarUnknownContaminationWitness :
    dfProcW.col? (anomalyColName paramsProcW.contamination_value) =
        some ⟨anomalyColName (mkRat 2 10), Dtype.int64, [Cell.num (-1)]⟩ ∧
      exceptIsOk (procesar_anomalias_pd dfProcW paramsProcW).1 = true :=
  ⟨by rfl, (procesarUnknownContamination dfProcW paramsProcW).2
    ⟨anomalyColName (mkRat 2 10), Dtype.int64, [Cell.num (-1)]⟩ (by rfl)
    (by decide) (by decide) (by decide) (by decide)
    (fun cv hcv => absurd hcv (List.not_mem_nil cv))⟩

/-- Loop invariant of the detector: on success, the loop appends exactly
one fresh `anomaly_<c>` column per contamination value in list order, each
holding precisely the seed-42 model's predictions on the (fixed) feature
matrix, and leaves every other column untouched. -/
theorem detectarGoSpec (fp : FitPredict) (m : List (List Cell)) :
    ∀ (cs : List ℚ) (d out : Df),
    (∀ cv ∈ cs, anomalyColName cv ∉ d.names) →
    ((cs.map anomalyColName).Nodup) →
    (detectarGo fp m cs d).1 = Except.ok out →
    out.names = d.names ++ cs.map anomalyColName ∧
    (∀ cv ∈ cs, ∃ pred, fp 42 cv m = Except.ok pred ∧
      out.col? (anomalyColName cv) =
        some ⟨anomalyColName cv, Dtype.int64, pred.map (fun z => Cell.num (z : ℚ))⟩) ∧
    (∀ n, n ∉ cs.map anomalyColName → out.col? n = d.col? n) := by
  intro cs
  induction cs with
  | nil =>
    intro d out _ _ hok
    rw [detectarGoNil] at hok
    cases Except.ok.inj hok
    exact ⟨by simp, by simp, fun n _ => rfl⟩
  | cons c rest ih =>
    intro d out hfresh hnodup hok
    rw [List.map_cons] at hnodup
    cases hf : fp 42 c m with
    | error e =>
      simp only [detectarGoCons, hf] at hok
      exact absurd hok (by simp)
    | ok pred =>
      simp only [detectarGoCons, hf] at hok
      by_cases hl : pred.length = d.nrows
      · rw [if_pos hl] at hok
        set d' := d.setCol (anomalyColName c) Dtype.int64
          (pred.map (fun z => Cell.num (z : ℚ))) with hd'
        have hfr : anomalyColName c ∉ d.names := hfresh c (List.mem_cons_self c rest)
        have hnames' : d'.names = d.names ++ [anomalyColName c] :=
          namesSetColFresh d _ _ _ hfr
        have hnodup' : ((rest.map anomalyColName).Nodup) :=
          (List.nodup_cons.mp hnodup).2
        have hninrest : anomalyColName c ∉ rest.map anomalyColName :=
          (List.nodup_cons.mp hnodup).1
        have hfresh' : ∀ cv ∈ rest, anomalyColName cv ∉ d'.names := by
          intro cv hcv hmem
          rw [hnames'] at hmem
          rcases List.mem_append.mp hmem with hmem | hmem
          · exact hfresh cv (List.mem_cons_of_mem c hcv) hmem
          · rw [List.mem_singleton] at hmem
            exact hninrest (hmem ▸ List.mem_map_of_mem anomalyColName hcv)
        obtain ⟨hn, hflags, hpres⟩ := ih d' out hfresh' hnodup' hok
        refine ⟨?_, ?_, ?_⟩
        · rw [hn, hnames', List.map_cons]
          simp
        · intro cv hcv
          rcases List.mem_cons.mp hcv with rfl | hcv'
          · refine ⟨pred, hf, ?_⟩
            rw [hpres _ hninrest, hd']
            exact colSetColFreshSelf d _ _ _ hfr
          · exact hflags cv hcv'
        · intro n hn2
          have hn3 : n ∉ rest.map anomalyColName := by
            intro hx
            apply hn2
            rw [List.map_cons]
            exact List.mem_cons_of_mem _ hx
          have hn4 : n ≠ anomalyColName c := by
            intro hx
            apply hn2
            rw [List.map_cons, hx]
            exact List.mem_cons_self _ _
          rw [hpres n hn3, hd', colSetColOther d _ _ _ n hn4]
      · rw [if_neg hl] at hok
        exact absurd hok (by simp)

/-- C6: determinism and column layout of the detector.  On a successful
run whose flag labels are fresh and distinct, the output's labels are the
input labels followed by one `anomaly_<c>` label per configured
contamination value in the configured list order, and each flag column is
exactly the seed-42 model's prediction on the z-score feature matrix of
the input — the output is a pure function of the model, the input frame
and the parameters, so two runs on identical input agree. -/
theorem detectarDeterministic (fp : FitPredict) (df : Df) (params : Params)
    (out : Df)
    (hfresh : ∀ cv ∈ params.contamination_values, anomalyColName cv ∉ df.names)
    (hnodup : (params.contamination_values.map anomalyColName).Nodup)
    (hok : (detectar_anomalias_pd fp df params).1 = Except.ok out) :
    out.names = df.names ++ params.contamination_values.map anomalyColName ∧
    ∀ cv ∈ params.contamination_values, ∃ pred,
      fp 42 cv (zscoreMatrix df) = Except.ok pred ∧
      out.col? (anomalyColName cv) =
        some ⟨anomalyColName cv, Dtype.int64,
          pred.map (fun z => Cell.num (z : ℚ))⟩ := by
  obtain ⟨hn, hflags, _⟩ := detectarGoSpec fp (zscoreMatrix df)
    params.contamination_values df out hfresh hnodup hok
  exact ⟨hn, hflags⟩

/-- C6 witness: the theorem applied to a concrete one-column table and one
contamination value. -/
theorem detectarDeterministicWitness :
    (∀ cv ∈ paramsMutC.contamination_values, anomalyColName cv ∉ dfMutC.names) ∧
      (detectar_anomalias_pd fpAllOnes dfMutC paramsMutC).1 = Except.ok outMutC ∧
      outMutC.names =
        dfMutC.names ++ paramsMutC.contamination_values.map anomalyColName :=
  ⟨by decide, by rfl,
    (detectarDeterministic fpAllOnes dfMutC paramsMutC outMutC (by decide)
      (by decide) (by rfl)).1⟩

/-- A flag label never collides with the `MARCA_ANOMALIA` label. -/
theorem anomalyNameNeMarca (cv : ℚ) :
    anomalyColName cv ≠ ("MARCA_ANOMALIA") := by
  intro h
  have h1 : (("anomaly_") ++ toString cv).data = ("MARCA_ANOMALIA").data := by
    rw [← h]
    rfl
  rw [String.data_append] at h1
  have h2 : ("anomaly_").data = ['a', 'n', 'o', 'm', 'a', 'l', 'y', '_'] := rfl
  have h3 : ("MARCA_ANOMALIA").data =
      ['M', 'A', 'R', 'C', 'A', '_', 'A', 'N', 'O', 'M', 'A', 'L', 'I', 'A'] := rfl
  rw [h2, h3] at h1
  simp at h1

/-- The in-place `MARCA_ANOMALIA` assignment does not change any row's
group key. -/
theorem rowKeyWithMarca (df : Df) (c : Col) (i : ℕ) :
    rowKey (dfWithMarca df c) i = rowKey df i := by
  unfold rowKey dfWithMarca
  rw [cellSetColOther df _ _ _ _ (by decide), cellSetColOther df _ _ _ _ (by decide)]

/-- Nor the row count, when the label is fresh and the frame nonempty. -/
theorem nrowsWithMarca (df : Df) (c : Col)
    (hmarca : ("MARCA_ANOMALIA") ∉ df.names) (hne : df.cols ≠ []) :
    (dfWithMarca df c).nrows = df.nrows :=
  nrowsSetColFresh df _ _ _ hmarca hne

/-- Nor any group's row set. -/
theorem groupRowsWithMarca (df : Df) (c : Col)
    (hmarca : ("MARCA_ANOMALIA") ∉ df.names) (hne : df.cols ≠ [])
    (k : Cell × Cell) :
    groupRows (dfWithMarca df c) k = groupRows df k := by
  unfold groupRows
  rw [nrowsWithMarca df c hmarca hne]
  apply List.filter_congr
  intro i _
  rw [rowKeyWithMarca]

/-- C4: summary consistency.  Whenever `procesar_anomalias_pd` succeeds on
a table whose flag cells are all -1 or 1 (as an isolation forest's
predictions are), every summary row's pair of counts for every configured
contamination value partitions that (CUENTA, MES_ANIO) group:
`anomalas + no_anomalas` equals the number of the group's rows in the
detector's output table. -/
theorem procesarSummaryConsistency (df : Df) (params : Params) (r : Df)
    (s : List ResumenRow)
    (hmarca : ("MARCA_ANOMALIA") ∉ df.names)
    (hflags : ∀ cv ∈ params.contamination_values, ∀ i < df.nrows,
      df.cell (anomalyColName cv) i = Cell.num (-1) ∨
      df.cell (anomalyColName cv) i = Cell.num 1)
    (hok : (procesar_anomalias_pd df params).1 = Except.ok (r, s)) :
    ∀ row ∈ s, ∀ t ∈ row.counts,
      t.1 ∈ params.contamination_values ∧
      t.2.1 + t.2.2 = (groupRows df (row.cuenta, row.mes_anio)).length := by
  cases hc : df.col? (anomalyColName params.contamination_value) with
  | none =>
    unfold procesar_anomalias_pd at hok
    simp only [hc] at hok
    exact absurd hok (by simp)
  | some c0 =>
    unfold procesar_anomalias_pd at hok
    simp only [hc] at hok
    have hne : df.cols ≠ [] :=
      List.ne_nil_of_mem (List.mem_of_find?_eq_some hc)
    cases hfind : reporteCols.find?
        (fun n => !((dfWithMarca df c0).names.contains n)) with
    | some n =>
      simp only [hfind] at hok
      exact absurd hok (by simp)
    | none =>
      simp only [hfind] at hok
      cases hmf : (if (sortedKeys (dfWithMarca df c0)).isEmpty then none
          else params.contamination_values.find? (fun cv =>
            !((dfWithMarca df c0).names.contains (anomalyColName cv)))) with
      | some cv =>
        simp only [hmf] at hok
        exact absurd hok (by simp)
      | none =>
        simp only [hmf] at hok
        have hpair := Except.ok.inj hok
        have hs : resumenOf (dfWithMarca df c0) params.contamination_values = s :=
          (Prod.mk.injEq .. ▸ hpair).2
        intro row hrow t ht
        rw [← hs] at hrow
        unfold resumenOf at hrow
        obtain ⟨k, hk, hkrow⟩ := List.mem_map.mp hrow
        rw [← hkrow] at ht
        obtain ⟨cv, hcv, hcvt⟩ := List.mem_map.mp ht
        refine ⟨?_, ?_⟩
        · rw [← hcvt]
          unfold flagCounts
          exact hcv
        · rw [← hcvt, ← hkrow]
          have hcells : ∀ x ∈ (groupRows (dfWithMarca df c0) k).map
              (fun i => (dfWithMarca df c0).cell (anomalyColName cv) i),
              x = Cell.num (-1) ∨ x = Cell.num 1 := by
            intro x hx
            obtain ⟨i, hi, hix⟩ := List.mem_map.mp hx
            have hilt : i < df.nrows := by
              have hi2 : i ∈ List.range (dfWithMarca df c0).nrows :=
                List.mem_of_mem_filter hi
              have hi3 := List.mem_range.mp hi2
              rw [nrowsWithMarca df c0 hmarca hne] at hi3
              exact hi3
            have hcell : (dfWithMarca df c0).cell (anomalyColName cv) i =
                df.cell (anomalyColName cv) i := by
              unfold dfWithMarca
              exact cellSetColOther df _ _ _ _ (anomalyNameNeMarca cv) i
            rw [← hix, hcell]
            exact hflags cv hcv i hilt
          have hpart := countPPartition _ hcells
          rw [List.length_map] at hpart
          show (flagCounts (dfWithMarca df c0) k cv).2.1 +
              (flagCounts (dfWithMarca df c0) k cv).2.2 =
            (groupRows df (k.1, k.2)).length
          unfold flagCounts
          dsimp only
          rw [Prod.mk.eta, ← groupRowsWithMarca df c0 hmarca hne]
          exact hpart

/-- Witness table for C4: two groups (A and B in the same month), one
contamination column with flags in {-1, 1}. -/
def dfSumW : Df :=
  ⟨[⟨("CUENTA"), Dtype.objectT, [Cell.str ("A"), Cell.str ("A"), Cell.str ("B")]⟩,
    ⟨("MES_ANIO"), Dtype.periodM,
      [Cell.str ("2023-01"), Cell.str ("2023-01"), Cell.str ("2023-01")]⟩,
    ⟨("PAIS_ORIGEN_DESTINO_TRX"), Dtype.objectT,
      [Cell.str ("CO"), Cell.str ("CO"), Cell.str ("CO")]⟩,
    ⟨("MONTO"), Dtype.float64, [Cell.num 10, Cell.num 20, Cell.num 30]⟩,
    ⟨anomalyColName (mkRat 1 10), Dtype.int64,
      [Cell.num (-1), Cell.num 1, Cell.num 1]⟩]⟩

/-- Witness parameters for C4: one configured contamination value, also
operative. -/
def paramsSumW : Params :=
  ⟨[], [], 0, [mkRat 1 10], mkRat 1 10⟩

/-- The row-level report the summarizer produces on the C4 witness table. -/
def rSumW : Df :=
  ⟨[⟨("CUENTA"), Dtype.objectT, [Cell.str ("A"), Cell.str ("A"), Cell.str ("B")]⟩,
    ⟨("MES_ANIO"), Dtype.periodM,
      [Cell.str ("2023-01"), Cell.str ("2023-01"), Cell.str ("2023-01")]⟩,
    ⟨("PAIS_ORIGEN_DESTINO_TRX"), Dtype.objectT,
      [Cell.str ("CO"), Cell.str ("CO"), Cell.str ("CO")]⟩,
    ⟨("MONTO"), Dtype.float64, [Cell.num 10, Cell.num 20, Cell.num 30]⟩,
    ⟨("MARCA_ANOMALIA"), Dtype.objectT,
      [Cell.str ("ANOMALO"), Cell.str ("NO ANOMALO"), Cell.str ("NO ANOMALO")]⟩]⟩

/-- The summary the summarizer produces on the C4 witness table: group A
has one anomalous and one normal row, group B one normal row. -/
def sSumW : List ResumenRow :=
  [⟨Cell.str ("A"), Cell.str ("2023-01"), [(mkRat 1 10, 1, 1)]⟩,
    ⟨Cell.str ("B"), Cell.str ("2023-01"), [(mkRat 1 10, 0, 1)]⟩]

/-- C4 witness: the summary-consistency theorem applied to the concrete
run; both groups' counts add up to their row counts. -/
theorem procesarSummaryConsistencyWitness :
    ("MARCA_ANOMALIA") ∉ dfSumW.names ∧
      (procesar_anomalias_pd dfSumW paramsSumW).1 = Except.ok (rSumW, sSumW) ∧
      (∀ row ∈ sSumW, ∀ t ∈ row.counts,
        t.1 ∈ paramsSumW.contamination_values ∧
        t.2.1 + t.2.2 = (groupRows dfSumW (row.cuenta, row.mes_anio)).length) :=
  ⟨by decide, by rfl,
    procesarSummaryConsistency dfSumW paramsSumW rSumW sSumW (by decide)
      (by decide) (by rfl)⟩

/-- A left fold of `min` is a lower bound of its arguments. -/
theorem foldlMinLe (xs : List ℚ) :
    ∀ a : ℚ, xs.foldl min a ≤ a ∧ ∀ x ∈ xs, xs.foldl min a ≤ x := by
  induction xs with
  | nil => exact fun a => ⟨le_refl a, by simp⟩
  | cons y ys ih =>
    intro a
    rw [List.foldl_cons]
    refine ⟨(ih (min a y)).1.trans (min_le_left a y), ?_⟩
    intro x hx
    rcases List.mem_cons.mp hx with rfl | hx'
    · exact (ih (min a x)).1.trans (min_le_right a x)
    · exact (ih (min a y)).2 x hx'

/-- A left fold of `max` is an upper bound of its arguments. -/
theorem leFoldlMax (xs : List ℚ) :
    ∀ a : ℚ, a ≤ xs.foldl max a ∧ ∀ x ∈ xs, x ≤ xs.foldl max a := by
  induction xs with
  | nil => exact fun a => ⟨le_refl a, by simp⟩
  | cons y ys ih =>
    intro a
    rw [List.foldl_cons]
    refine ⟨(le_max_left a y).trans (ih (max a y)).1, ?_⟩
    intro x hx
    rcases List.mem_cons.mp hx with rfl | hx'
    · exact (le_max_right a x).trans (ih (max a x)).1
    · exact (ih (max a y)).2 x hx'

/-- A left fold of `min` lands on one of its arguments. -/
theorem foldlMinMem (xs : List ℚ) :
    ∀ a : ℚ, xs.foldl min a ∈ a :: xs := by
  induction xs with
  | nil => intro a; simp
  | cons y ys ih =>
    intro a
    rw [List.foldl_cons]
    rcases List.mem_cons.mp (ih (min a y)) with he | hm
    · rw [he]
      rcases min_choice a y with hc | hc
      · rw [hc]
        exact List.mem_cons_self a (y :: ys)
      · rw [hc]
        exact List.mem_cons_of_mem a (List.mem_cons_self y ys)
    · exact List.mem_cons_of_mem a (List.mem_cons_of_mem y hm)

/-- A left fold of `max` lands on one of its arguments. -/
theorem foldlMaxMem (xs : List ℚ) :
    ∀ a : ℚ, xs.foldl max a ∈ a :: xs := by
  induction xs with
  | nil => intro a; simp
  | cons y ys ih =>
    intro a
    rw [List.foldl_cons]
    rcases List.mem_cons.mp (ih (max a y)) with he | hm
    · rw [he]
      rcases max_choice a y with hc | hc
      · rw [hc]
        exact List.mem_cons_self a (y :: ys)
      · rw [hc]
        exact List.mem_cons_of_mem a (List.mem_cons_self y ys)
    · exact List.mem_cons_of_mem a (List.mem_cons_of_mem y hm)

/-- `qmin` bounds every element. -/
theorem qminLe {l : List ℚ} {x : ℚ} (hx : x ∈ l) : qmin l ≤ x := by
  cases l with
  | nil => cases hx
  | cons y ys =>
    rcases List.mem_cons.mp hx with rfl | hx'
    · exact (foldlMinLe ys x).1
    · exact (foldlMinLe ys y).2 x hx'

/-- `qmax` bounds every element. -/
theorem leQmax {l : List ℚ} {x : ℚ} (hx : x ∈ l) : x ≤ qmax l := by
  cases l with
  | nil => cases hx
  | cons y ys =>
    rcases List.mem_cons.mp hx with rfl | hx'
    · exact (leFoldlMax ys x).1
    · exact (leFoldlMax ys y).2 x hx'

/-- `qmin` of a nonempty list is attained. -/
theorem qminMem {l : List ℚ} (h : l ≠ []) : qmin l ∈ l := by
  cases l with
  | nil => exact absurd rfl h
  | cons y ys => exact foldlMinMem ys y

/-- `qmax` of a nonempty list is attained. -/
theorem qmaxMem {l : List ℚ} (h : l ≠ []) : qmax l ∈ l := by
  cases l with
  | nil => exact absurd rfl h
  | cons y ys => exact foldlMaxMem ys y

/-- Replacing the (unique first) column named `n` is found by a lookup for
`n`. -/
theorem findMapReplace (cols : List Col) (n : String) (dt : Dtype)
    (cs : List Cell) (hn : ∃ c ∈ cols, c.name = n) :
    (cols.map (fun c => if c.name = n then (⟨n, dt, cs⟩ : Col) else c)).find?
      (fun x => x.name == n) = some ⟨n, dt, cs⟩ := by
  induction cols with
  | nil =>
    obtain ⟨c, hc, _⟩ := hn
    cases hc
  | cons c t ih =>
    by_cases hcn : c.name = n
    · rw [List.map_cons, if_pos hcn,
        @List.find?_cons_of_pos _ (fun x : Col => x.name == n) ⟨n, dt, cs⟩ _ (by simp)]
    · rw [List.map_cons, if_neg hcn,
        @List.find?_cons_of_neg _ (fun x : Col => x.name == n) c _ (by simp [hcn])]
      apply ih
      obtain ⟨c0, hc0, hcn0⟩ := hn
      rcases List.mem_cons.mp hc0 with rfl | h0
      · exact absurd hcn0 hcn
      · exact ⟨c0, h0, hcn0⟩

/-- After a column assignment, looking the label up yields exactly the
assigned column. -/
theorem colSetColSelf (df : Df) (n : String) (dt : Dtype) (cs : List Cell) :
    (df.setCol n dt cs).col? n = some ⟨n, dt, cs⟩ := by
  unfold Df.setCol
  by_cases h : df.names.contains n = true
  · rw [if_pos h]
    have hn : n ∈ df.names := containsIffMem.mp h
    simp only [Df.names, List.mem_map] at hn
    exact findMapReplace df.cols n dt cs hn
  · rw [if_neg h]
    show List.find? _ (df.cols ++ _) = _
    rw [List.find?_append,
      findColEqNone (fun hx => h (containsIffMem.mpr hx)),
      @List.find?_cons_of_pos _ (fun x : Col => x.name == n) ⟨n, dt, cs⟩ _ (by simp)]
    rfl

/-- Scaling column `m` leaves the lookup of any other label unchanged. -/
theorem scaleColInOther (d : Df) (m n : String) (h : n ≠ m) :
    (scaleColIn d m).col? n = d.col? n := by
  unfold scaleColIn
  cases hc : d.col? m with
  | none => rfl
  | some c =>
    dsimp only
    split
    · exact colSetColOther d m _ _ n h
    · rfl

/-- What the scaling loop iteration leaves at its own label. -/
theorem scaleColInLookup (d : Df) (n : String) :
    (scaleColIn d n).col? n =
      match d.col? n with
      | none => none
      | some c =>
        if qmax c.numVals - qmin c.numVals ≠ 0 then
          some ⟨n, Dtype.float64, c.cells.map
            (scaleCell (qmin c.numVals) (qmax c.numVals - qmin c.numVals))⟩
        else some c := by
  unfold scaleColIn
  cases hc : d.col? n with
  | none => exact hc
  | some c =>
    dsimp only
    split
    · exact colSetColSelf d n _ _
    · exact hc

/-- Labels outside the scaled selection are untouched by the whole loop. -/
theorem foldScaleLookup :
    ∀ (sel : List String) (d : Df) (n : String), n ∉ sel →
      (sel.foldl scaleColIn d).col? n = d.col? n := by
  intro sel
  induction sel with
  | nil => intro d n _; rfl
  | cons m ms ih =>
    intro d n hn
    rw [List.foldl_cons, ih (scaleColIn d m) n (fun hx => hn (List.mem_cons_of_mem m hx)),
      scaleColInOther d m n (fun hx => hn (hx ▸ List.mem_cons_self m ms))]

/-- A selected label's final column is the one produced by its own
iteration (each label is scaled once). -/
theorem foldScaleTarget :
    ∀ (sel : List String) (d : Df) (n : String), sel.Nodup → n ∈ sel →
      (sel.foldl scaleColIn d).col? n = (scaleColIn d n).col? n := by
  intro sel
  induction sel with
  | nil => intro d n _ h; cases h
  | cons m ms ih =>
    intro d n hnd hmem
    rw [List.foldl_cons]
    rcases List.mem_cons.mp hmem with rfl | hmem'
    · exact foldScaleLookup ms (scaleColIn d n) n (List.nodup_cons.mp hnd).1
    · have hne : n ≠ m := by
        rintro rfl
        exact (List.nodup_cons.mp hnd).1 hmem'
      rw [ih (scaleColIn d m) n (List.nodup_cons.mp hnd).2 hmem',
        scaleColInLookup, scaleColInLookup, scaleColInOther d m n hne]

/-- C5: min-max normalization.  For a numeric-dtype column with distinct
labels: if it is not a strict binary indicator and its range is nonzero,
the output column holds exactly `(x - min) / (max - min)` per non-missing
value, those values lie in [0, 1], the attained minimum maps to 0 and the
attained maximum to 1; a binary-indicator column or a zero-range column is
returned unchanged. -/
theorem minMaxScaler (df : Df) (hnodup : df.names.Nodup)
    (col : Col) (hcol : col ∈ df.cols)
    (hdt : isNumberDtype col.dtype = true) :
    (isBinaryCol df col = false → qmin col.numVals ≠ qmax col.numVals →
      (min_max_scaler_pd df).1.col? col.name =
        some ⟨col.name, Dtype.float64, col.cells.map
          (scaleCell (qmin col.numVals) (qmax col.numVals - qmin col.numVals))⟩ ∧
      qmin col.numVals ∈ col.numVals ∧ qmax col.numVals ∈ col.numVals ∧
      (∀ x ∈ col.numVals,
        scaleCell (qmin col.numVals) (qmax col.numVals - qmin col.numVals)
            (Cell.num x) =
          Cell.num ((x - qmin col.numVals) /
            (qmax col.numVals - qmin col.numVals)) ∧
        0 ≤ (x - qmin col.numVals) / (qmax col.numVals - qmin col.numVals) ∧
        (x - qmin col.numVals) / (qmax col.numVals - qmin col.numVals) ≤ 1) ∧
      (qmin col.numVals - qmin col.numVals) /
          (qmax col.numVals - qmin col.numVals) = 0 ∧
      (qmax col.numVals - qmin col.numVals) /
          (qmax col.numVals - qmin col.numVals) = 1) ∧
    ((isBinaryCol df col = true ∨ qmin col.numVals = qmax col.numVals) →
      (min_max_scaler_pd df).1.col? col.name = some col) := by
  have hColLookup : df.col? col.name = some col := findColOfMem hnodup hcol
  set numericCols := (df.cols.filter (fun c => isNumberDtype c.dtype)).map
    (fun c => c.name) with hnc
  set sel := numericCols.filter (fun n =>
    !(((df.col? n).map (fun c => isBinaryCol df c)).getD false)) with hsel
  have hfold : (min_max_scaler_pd df).1 = sel.foldl scaleColIn df := rfl
  have hselNodup : sel.Nodup := by
    have h1 : List.Sublist numericCols df.names := by
      rw [hnc]
      show List.Sublist _ (df.cols.map (fun c => c.name))
      exact (List.filter_sublist df.cols).map (fun c => c.name)
    have h2 : List.Sublist sel numericCols := by
      rw [hsel]
      exact List.filter_sublist numericCols
    exact (h2.trans h1).nodup hnodup
  have hmemNum : col.name ∈ numericCols := by
    rw [hnc]
    refine List.mem_map.mpr ⟨col, ?_, rfl⟩
    exact List.mem_filter.mpr ⟨hcol, hdt⟩
  constructor
  · intro hbin hrange
    have hmemSel : col.name ∈ sel := by
      rw [hsel]
      refine List.mem_filter.mpr ⟨hmemNum, ?_⟩
      simp [hColLookup, hbin]
    have hvne : col.numVals ≠ [] := by
      intro he
      rw [he] at hrange
      exact hrange rfl
    have hmlt : qmin col.numVals < qmax col.numVals := by
      rcases lt_or_eq_of_le (qminLe (qmaxMem hvne)) with h | h
      · exact h
      · exact absurd h hrange
    have hrpos : 0 < qmax col.numVals - qmin col.numVals := sub_pos.mpr hmlt
    have hrne : qmax col.numVals - qmin col.numVals ≠ 0 := ne_of_gt hrpos
    refine ⟨?_, qminMem hvne, qmaxMem hvne, ?_, ?_, ?_⟩
    · rw [hfold, foldScaleTarget sel df col.name hselNodup hmemSel,
        scaleColInLookup]
      simp only [hColLookup]
      rw [if_pos hrne]
    · intro x hx
      refine ⟨rfl, ?_, ?_⟩
      · exact div_nonneg (sub_nonneg.mpr (qminLe hx)) (le_of_lt hrpos)
      · rw [div_le_one hrpos]
        exact sub_le_sub_right (leQmax hx) _
    · rw [sub_self, zero_div]
    · exact div_self hrne
  · intro hcase
    by_cases hb : isBinaryCol df col = true
    · have hnot : col.name ∉ sel := by
        rw [hsel]
        intro hmem
        have h2 := (List.mem_filter.mp hmem).2
        simp [hColLookup, hb] at h2
      rw [hfold, foldScaleLookup sel df col.name hnot]
      exact hColLookup
    · rcases hcase with hb2 | hz
      · exact absurd hb2 hb
      · have hb' : isBinaryCol df col = false := by
          cases hq : isBinaryCol df col
          · rfl
          · exact absurd hq hb
        have hmemSel : col.name ∈ sel := by
          rw [hsel]
          refine List.mem_filter.mpr ⟨hmemNum, ?_⟩
          simp [hColLookup, hb']
        rw [hfold, foldScaleTarget sel df col.name hselNodup hmemSel,
          scaleColInLookup]
        simp only [hColLookup]
        rw [if_neg (by simp [hz])]

/-- Witness column for C5: two distinct values 1 and 3. -/
def colScaleW : Col :=
  ⟨("MONTO"), Dtype.float64, [Cell.num 1, Cell.num 3]⟩

/-- Witness table for C5. -/
def dfScaleW : Df :=
  ⟨[colScaleW]⟩

/-- C5 witness: the theorem applied to the concrete one-column table. -/
theorem minMaxScalerWitness :
    dfScaleW.names.Nodup ∧ isBinaryCol dfScaleW colScaleW = false ∧
      qmin colScaleW.numVals ≠ qmax colScaleW.numVals ∧
      (min_max_scaler_pd dfScaleW).1.col? colScaleW.name =
        some ⟨colScaleW.name, Dtype.float64, colScaleW.cells.map
          (scaleCell (qmin colScaleW.numVals)
            (qmax colScaleW.numVals - qmin colScaleW.numVals))⟩ :=
  ⟨by decide, by decide, by decide,
    ((minMaxScaler dfScaleW (by decide) colScaleW (by decide) (by decide)).1
      (by decide) (by decide)).1⟩

/-- Reading anywhere in an all-zero list (with default 0) gives 0. -/
theorem getDReplicateZero (n i : ℕ) : (List.replicate n (0 : ℝ)).getD i 0 = 0 := by
  rcases Nat.lt_or_ge i n with h | h
  · rw [List.getD_eq_getElem _ _ (by simpa using h), List.getElem_replicate]
  · rw [List.getD_eq_default _ _ (by simpa using h)]

/-- Reading position `i < n` of a map over `range n`. -/
theorem getDMapRange (g : ℕ → ℝ) (n i : ℕ) (h : i < n) :
    ((List.range n).map g).getD i 0 = g i := by
  rw [List.getD_eq_getElem _ _ (by simpa using h), List.getElem_map,
    List.getElem_range]

/-- C1: small-sample suppression.  On a successful run of the grouped
z-score stage, there is one derived column per numerical column, and for
every numerical column and every row whose group has fewer non-missing
observations than `min_group_size`, the derived `z_score_` cell at that
row is exactly 0, whatever the group's values and variance. -/
theorem zscoreSuppression (catDf : List KeyCol) (numDf : List RCol)
    (params : Params) (catOut : List KeyCol) (numOut : List RCol)
    (zs : List ZCol)
    (hok : (calculate_z_scores_pd catDf numDf params).1 =
      Except.ok (catOut, numOut, zs)) :
    zs.length = numDf.length ∧
    ∀ k (hk : k < numDf.length) (i : ℕ),
      i < (numDf.get ⟨k, hk⟩).cells.length →
      ((groupIdxs catDf params.groupby_cols
            (numDf.get ⟨k, hk⟩).cells.length i).map
          (fun j => (numDf.get ⟨k, hk⟩).cells.getD j none)).reduceOption.length <
        params.min_group_size →
      ∃ hk2 : k < zs.length,
        (zs.get ⟨k, hk2⟩).name = ("z_score_") ++ (numDf.get ⟨k, hk⟩).name ∧
        (zs.get ⟨k, hk2⟩).cells.getD i 0 = 0 := by
  unfold calculate_z_scores_pd at hok
  cases hf : params.groupby_cols.find?
      (fun g => !((catDf.map (fun c => c.name)).contains g)) with
  | some g =>
    rw [hf] at hok
    exact absurd hok (by simp)
  | none =>
    rw [hf] at hok
    by_cases hall : (numDf.all fun col =>
        transformOk params.min_group_size catDf params.groupby_cols col.cells) = true
    · rw [if_pos hall] at hok
      have hinj := Except.ok.inj hok
      have hzs : numDf.map (fun col =>
          (⟨"z_score_" ++ col.name, (List.range col.cells.length).map
            (transformZAt params.min_group_size catDf params.groupby_cols
              col.cells)⟩ : ZCol)) = zs := by
        have h22 := congrArg (fun p => p.2.2) hinj
        simpa using h22
      subst hzs
      constructor
      · exact List.length_map _ _
      · intro k hk i hi hsupp
        have hk2 : k < (numDf.map (fun col =>
            (⟨"z_score_" ++ col.name, (List.range col.cells.length).map
              (transformZAt params.min_group_size catDf params.groupby_cols
                col.cells)⟩ : ZCol))).length := by
          simpa using hk
        refine ⟨hk2, ?_, ?_⟩
        · rw [List.get_map]
        · rw [List.get_map]
          show ((List.range (numDf.get ⟨k, hk⟩).cells.length).map
            (transformZAt params.min_group_size catDf params.groupby_cols
              (numDf.get ⟨k, hk⟩).cells)).getD i 0 = 0
          rw [getDMapRange _ _ _ hi]
          unfold transformZAt
          unfold lambdaZ
          dsimp only
          rw [if_neg (not_le.mpr hsupp)]
          exact getDReplicateZero _ _
    · rw [if_neg hall] at hok
      exact absurd hok (by simp)

/-- Witness key column for C1: groups A (2 rows) and B (1 row). -/
def catZW : List KeyCol :=
  [⟨("CUENTA"), [("A"), ("A"), ("B")]⟩]

/-- Witness numerical column for C1. -/
def numZW : List RCol :=
  [⟨("MONTO"), [some (10 : ℝ), some 20, some 5]⟩]

/-- Witness parameters for C1: threshold 3, so both groups are too small. -/
def paramsZW : Params :=
  ⟨[], [("CUENTA")], 3, [], 0⟩

/-- The z-score columns the stage derives on the C1 witness input. -/
noncomputable def zsZW : List ZCol :=
  [⟨"z_score_" ++ ("MONTO"), (List.range 3).map
    (transformZAt 3 catZW [("CUENTA")] [some (10 : ℝ), some 20, some 5])⟩]

/-- C1 witness: on the concrete input, the run succeeds and the first
z-score cell (in group A, of size 2 < 3) is exactly 0. -/
theorem zscoreSuppressionWitness :
    (calculate_z_scores_pd catZW numZW paramsZW).1 =
        Except.ok (catZW, numZW, zsZW) ∧
      ∃ hk2 : 0 < zsZW.length,
        (zsZW.get ⟨0, hk2⟩).name = ("z_score_") ++ (numZW.get ⟨0, by decide⟩).name ∧
        (zsZW.get ⟨0, hk2⟩).cells.getD 0 0 = 0 :=
  ⟨by rfl,
    (zscoreSuppression catZW numZW paramsZW catZW numZW zsZW (by rfl)).2
      0 (by decide) 0 (by decide) (by decide)⟩

/-- Key column of the C2 failing input: a single group of three rows. -/
def catBugW : List KeyCol :=
  [⟨("CUENTA"), [("A"), ("A"), ("A")]⟩]

/-- Numerical column of the C2 failing input: two non-missing values and
one NaN. -/
def numBugW : List RCol :=
  [⟨("MONTO"), [some (1 : ℝ), some 2, none]⟩]

/-- Parameters of the C2 failing input: threshold 2, met by the group's
two non-missing observations. -/
def paramsBugW : Params :=
  ⟨[], [("CUENTA")], 2, [], 0⟩

/-- C2 failing-input evaluation: with a group of three rows, two
non-missing values and threshold 2, the z-score branch is taken but
`zscore(x.dropna(), ddof=1)` has only 2 entries for a 3-row group, so the
pandas transform raises `ValueError` instead of assigning z-scores to the
non-missing values and 0 to the NaN row, as the function's own docstring
("Los valores NaN se tratan como cero") and the spec promise. -/
theorem zscoreNanCrash :
    (calculate_z_scores_pd catBugW numBugW paramsBugW).1 =
      Except.error PdError.valueError := by
  rfl
